import Mathlib

/-!
Verification development for the chat frontend in `frontend/app/page.tsx`
of the repository. The core modelled here is the incremental streamed
response assembler inside `handleSubmit`, the client-side credential
check `validateApiKey`, and the PDF upload handler `handleFileUpload`.
State updates performed through React's `setMessages(prev => ...)` are
modelled as pure functions on the transcript (a list of messages), and
the network interaction of one submission is modelled by a transport
outcome datatype; the functional updaters compose in dispatch order, so
a run of `handleSubmit` is the corresponding composition.
-/

namespace Page

/-- A transcript entry, from the React state
`messages: { role: string; content: string }[]` in `page.tsx`. -/
structure Message where
  role : String
  content : String
deriving DecidableEq, Repr

/-- The JavaScript method `String.prototype.startsWith`, modelled on the
character list. -/
def jsStartsWith (s pre : String) : Bool :=
  pre.data.isPrefixOf s.data

/-- The check `validateApiKey` from `page.tsx`:
`(key.startsWith('sk-') || key.startsWith('sk-proj-')) && key.length >= 40`.
(For the ASCII credential strings involved, JavaScript's UTF-16 `length`
agrees with `String.length` on code points.) -/
def validateApiKey (key : String) : Bool :=
  (jsStartsWith key "sk-" || jsStartsWith key "sk-proj-") && decide (key.length ≥ 40)

/-- The JavaScript method `String.prototype.trim`, modelled on the character list:
drop leading whitespace, then trailing whitespace. (The ordinary whitespace
characters are covered by `Char.isWhitespace`.) -/
def jsTrim (s : String) : String :=
  ⟨((s.data.dropWhile Char.isWhitespace).reverse.dropWhile Char.isWhitespace).reverse⟩

/-- The `setMessages` functional updater dispatched for each received chunk in
`handleSubmit`'s read loop, with `acc` the value of the accumulator
`assistantMessage` after appending the decoded chunk:
copy `prev`, look at `newMessages[newMessages.length - 1]`; if its role is
`'assistant'` overwrite its content with `acc`, otherwise append
`{ role: 'assistant', content: acc }`. On an empty transcript the code
would read `.role` of `undefined` and throw, modelled as `none`
(unreachable in an actual run, since the user entry is appended first). -/
def chunkUpdate (prev : List Message) (acc : String) : Option (List Message) :=
  match prev.getLast? with
  | none => none
  | some lastMessage =>
    if lastMessage.role = "assistant" then
      some (prev.dropLast ++ [⟨"assistant", acc⟩])
    else
      some (prev ++ [⟨"assistant", acc⟩])

/-- Concatenation of the decoded text chunks in arrival order. -/
def concatChunks : List String → String
  | [] => ""
  | c :: rest => c ++ concatChunks rest

/-- The read loop of `handleSubmit`: starting from transcript `t` and
accumulator `acc` (the `assistantMessage` variable), process the remaining
chunks in order, dispatching `chunkUpdate` after each one. -/
def runChunks (t : List Message) (acc : String) : List String → Option (List Message)
  | [] => some t
  | c :: rest =>
    match chunkUpdate t (acc ++ c) with
    | none => none
    | some t' => runChunks t' (acc ++ c) rest

/-- Outcome of the transport interaction of one `handleSubmit` session:
`rejected msg` covers every failure before the first chunk is read (fetch
throwing, a non-ok status — in which case `msg` is
`errorData.detail || 'Server responded with status: <status>'` — or a
missing body reader); `streamed chunks` is a stream delivering `chunks`
and then ending normally; `streamFail chunks msg` delivers `chunks` and
then fails mid-stream with message `msg`. -/
inductive TransportResult where
  | rejected (msg : String)
  | streamed (chunks : List String)
  | streamFail (chunks : List String) (msg : String)

/-- The entry appended by `handleSubmit`'s catch block:
`{ role: 'assistant', content: 'Error: ' + message }`. -/
def errorEntry (msg : String) : Message :=
  ⟨"assistant", "Error: " ++ msg⟩

/-- Result of one `handleSubmit` invocation: the final transcript, and
whether a transport request (`fetch` of a chat endpoint) was issued. -/
structure SubmitResult where
  messages : List Message
  calledTransport : Bool
deriving DecidableEq, Repr

/-- The handler `handleSubmit` from `page.tsx`, as a function of the submitted input,
the `isValidApiKey` flag, the transcript before submission, and the
transport outcome. Guard: `if (!inputMessage.trim() || !isValidApiKey)
return;` — a no-op issuing no request. Otherwise the user entry is
appended, the request is issued, and: on rejection before streaming the
catch block appends an error entry; on a stream the read loop runs
`chunkUpdate` per chunk; on a mid-stream failure the catch block appends
an error entry after the loop's last state. The `none` fallbacks are
unreachable: the transcript is nonempty when the loop runs. -/
def handleSubmit (input : String) (isValidApiKey : Bool) (msgs : List Message)
    (tr : TransportResult) : SubmitResult :=
  if jsTrim input = "" ∨ isValidApiKey = false then ⟨msgs, false⟩
  else
    let t1 := msgs ++ [⟨"user", input⟩]
    match tr with
    | .rejected m => ⟨t1 ++ [errorEntry m], true⟩
    | .streamed chunks =>
      match runChunks t1 "" chunks with
      | some t2 => ⟨t2, true⟩
      | none => ⟨t1, true⟩
    | .streamFail chunks m =>
      match runChunks t1 "" chunks with
      | some t2 => ⟨t2 ++ [errorEntry m], true⟩
      | none => ⟨t1 ++ [errorEntry m], true⟩

/-- The `pdfStatus` React state: `{ pdf_loaded: boolean; chunks_count: number }`. -/
structure PdfStatus where
  pdf_loaded : Bool
  chunks_count : Nat
deriving DecidableEq, Repr

/-- The component state touched by `handleFileUpload`: the transcript, the
`isUploading` flag, the selected file (`pdfFile`, modelled by its name),
the file input element's `value`, the chat mode string, and `pdfStatus`. -/
structure AppState where
  messages : List Message
  isUploading : Bool
  pdfFile : Option String
  fileInputValue : String
  chatMode : String
  pdfStatus : PdfStatus
deriving DecidableEq, Repr

/-- Outcome of the upload request in `handleFileUpload`: `ok status` is a
successful upload, with `status` the result of the follow-up
`checkPdfStatus` probe (`none` when that probe fails or is non-ok — its
errors are swallowed); `err msg` covers a non-ok upload response (with
`msg = error.detail || 'Failed to upload PDF'`) or a thrown fetch error. -/
inductive UploadResult where
  | ok (status : Option PdfStatus)
  | err (msg : String)

/-- The success entry appended by `handleFileUpload`. -/
def uploadSuccessEntry (name : String) : Message :=
  ⟨"assistant", "PDF \"" ++ name ++
    "\" uploaded and processed successfully! You can now ask questions about the document."⟩

/-- The entry appended by `handleFileUpload`'s catch block. -/
def uploadErrorEntry (msg : String) : Message :=
  ⟨"assistant", "Error uploading PDF: " ++ msg⟩

/-- The handler `handleFileUpload` from `page.tsx`. Guard: `if (!pdfFile ||
!isValidApiKey) return;` — a no-op issuing no request. Otherwise the
request is issued; on success `chatMode` becomes `'rag'` (and stays
`'rag'` after `checkPdfStatus`, which also refreshes `pdfStatus` when the
probe answers) and the success entry is appended; on failure the catch
block appends the error entry. The finally block always resets
`isUploading` to false, `pdfFile` to null, and clears the file input's
value. Returns the new state and whether a request was issued. -/
def handleFileUpload (st : AppState) (isValidApiKey : Bool) (res : UploadResult) :
    AppState × Bool :=
  match st.pdfFile with
  | none => (st, false)
  | some name =>
    if isValidApiKey = false then (st, false)
    else
      let st1 :=
        match res with
        | .ok status =>
          { st with
            messages := st.messages ++ [uploadSuccessEntry name]
            chatMode := "rag"
            pdfStatus := status.getD st.pdfStatus }
        | .err m =>
          { st with messages := st.messages ++ [uploadErrorEntry m] }
      ({ st1 with isUploading := false, pdfFile := none, fileInputValue := "" }, true)

/-- Every entry of the transcript has role `"user"` or `"assistant"`. -/
def rolesOK (t : List Message) : Prop :=
  ∀ m ∈ t, m.role = "user" ∨ m.role = "assistant"

/-! ### Basic string facts used by the streaming lemmas -/

theorem string_append_empty (s : String) : s ++ "" = s := by
  cases s with
  | mk data => show String.mk (data ++ []) = String.mk data
               rw [List.append_nil]

theorem string_empty_append (s : String) : "" ++ s = s := rfl

theorem string_append_assoc (a b c : String) : a ++ b ++ c = a ++ (b ++ c) := by
  cases a; cases b; cases c
  show String.mk (_ ++ _ ++ _) = String.mk (_ ++ (_ ++ _))
  rw [List.append_assoc]

/-! ### Behaviour of one chunk step -/

/-- When the last entry has role `"assistant"`, the chunk step overwrites its
content with the accumulator and creates no entry. -/
theorem chunkUpdate_assistant (t0 : List Message) (s a : String) :
    chunkUpdate (t0 ++ [⟨"assistant", s⟩]) a = some (t0 ++ [⟨"assistant", a⟩]) := by
  simp [chunkUpdate, List.getLast?_concat, List.dropLast_concat]

/-- When the last entry's role is not `"assistant"`, the chunk step appends a
fresh assistant entry carrying the accumulator. -/
theorem chunkUpdate_other (t0 : List Message) (u : Message)
    (hu : ¬ u.role = "assistant") (a : String) :
    chunkUpdate (t0 ++ [u]) a = some ((t0 ++ [u]) ++ [⟨"assistant", a⟩]) := by
  simp [chunkUpdate, List.getLast?_concat, hu]

/-- Running the loop from a transcript whose last entry is an open assistant
entry keeps replacing that entry's content; the prefix `t0` is untouched and
the final content is the accumulator followed by the remaining chunks. -/
theorem runChunks_assistant (cs : List String) (t0 : List Message) (s acc : String) :
    runChunks (t0 ++ [⟨"assistant", s⟩]) acc cs =
      some (t0 ++ [⟨"assistant", if cs.isEmpty then s else acc ++ concatChunks cs⟩]) := by
  induction cs generalizing s acc with
  | nil => simp [runChunks]
  | cons c rest ih =>
    rw [runChunks, chunkUpdate_assistant]
    show runChunks (t0 ++ [⟨"assistant", acc ++ c⟩]) (acc ++ c) rest = _
    rw [ih]
    cases rest with
    | nil => simp [concatChunks, string_append_empty]
    | cons d ds => simp [concatChunks, string_append_assoc]

/-- Running the loop from a transcript whose last entry is not an assistant
entry appends exactly one assistant entry on the first chunk and then grows
its content; the starting transcript is a prefix of the result unchanged. -/
theorem runChunks_other (t0 : List Message) (u : Message)
    (hu : ¬ u.role = "assistant") (acc c : String) (rest : List String) :
    runChunks (t0 ++ [u]) acc (c :: rest) =
      some ((t0 ++ [u]) ++ [⟨"assistant", acc ++ concatChunks (c :: rest)⟩]) := by
  rw [runChunks, chunkUpdate_other _ _ hu]
  show runChunks ((t0 ++ [u]) ++ [⟨"assistant", acc ++ c⟩]) (acc ++ c) rest = _
  rw [runChunks_assistant]
  cases rest with
  | nil => simp [concatChunks, string_append_empty]
  | cons d ds => simp [concatChunks, string_append_assoc]

/-! ### Characterization of `handleSubmit`, one transport outcome at a time -/

/-- Failing the guard (blank input or invalid key) is a no-op. -/
theorem hs_guard (input : String) (key : Bool) (msgs : List Message)
    (tr : TransportResult) (h : jsTrim input = "" ∨ key = false) :
    handleSubmit input key msgs tr = ⟨msgs, false⟩ := by
  unfold handleSubmit
  rw [if_pos h]

theorem hs_not_guard (input : String) (h : ¬ jsTrim input = "") :
    ¬ (jsTrim input = "" ∨ (true : Bool) = false) := by
  rintro (h1 | h2)
  · exact h h1
  · cases h2

/-- A transport rejection before streaming appends the user entry and one
error entry. -/
theorem hs_rejected (input : String) (msgs : List Message) (m : String)
    (h : ¬ jsTrim input = "") :
    handleSubmit input true msgs (.rejected m) =
      ⟨msgs ++ [⟨"user", input⟩, errorEntry m], true⟩ := by
  unfold handleSubmit
  rw [if_neg (hs_not_guard input h)]
  simp

/-- A stream that ends before its first chunk leaves only the user entry. -/
theorem hs_streamed_nil (input : String) (msgs : List Message)
    (h : ¬ jsTrim input = "") :
    handleSubmit input true msgs (.streamed []) =
      ⟨msgs ++ [⟨"user", input⟩], true⟩ := by
  unfold handleSubmit
  rw [if_neg (hs_not_guard input h)]
  simp [runChunks]

/-- A stream delivering at least one chunk appends the user entry and exactly
one assistant entry whose content is the concatenation of all chunks. -/
theorem hs_streamed_cons (input : String) (msgs : List Message)
    (c : String) (rest : List String) (h : ¬ jsTrim input = "") :
    handleSubmit input true msgs (.streamed (c :: rest)) =
      ⟨msgs ++ [⟨"user", input⟩, ⟨"assistant", concatChunks (c :: rest)⟩], true⟩ := by
  unfold handleSubmit
  rw [if_neg (hs_not_guard input h)]
  show (match runChunks (msgs ++ [Message.mk "user" input]) "" (c :: rest) with
        | some t2 => SubmitResult.mk t2 true
        | none => SubmitResult.mk (msgs ++ [Message.mk "user" input]) true) = _
  rw [runChunks_other msgs ⟨"user", input⟩ (by simp) "" c rest]
  simp

/-- A mid-stream failure before the first chunk appends the user entry and one
error entry, and no assistant-content entry. -/
theorem hs_streamFail_nil (input : String) (msgs : List Message) (m : String)
    (h : ¬ jsTrim input = "") :
    handleSubmit input true msgs (.streamFail [] m) =
      ⟨msgs ++ [⟨"user", input⟩, errorEntry m], true⟩ := by
  unfold handleSubmit
  rw [if_neg (hs_not_guard input h)]
  simp [runChunks]

/-- A mid-stream failure after at least one chunk keeps the partial assistant
entry and appends one error entry after it. -/
theorem hs_streamFail_cons (input : String) (msgs : List Message)
    (c : String) (rest : List String) (m : String) (h : ¬ jsTrim input = "") :
    handleSubmit input true msgs (.streamFail (c :: rest) m) =
      ⟨msgs ++ [⟨"user", input⟩, ⟨"assistant", concatChunks (c :: rest)⟩,
        errorEntry m], true⟩ := by
  unfold handleSubmit
  rw [if_neg (hs_not_guard input h)]
  show (match runChunks (msgs ++ [Message.mk "user" input]) "" (c :: rest) with
        | some t2 => SubmitResult.mk (t2 ++ [errorEntry m]) true
        | none => SubmitResult.mk (msgs ++ [Message.mk "user" input] ++ [errorEntry m]) true) = _
  rw [runChunks_other msgs ⟨"user", input⟩ (by simp) "" c rest]
  simp

/-! ### Characterization of `handleFileUpload` -/

/-- No file selected: the guard returns immediately, no request is made. -/
theorem hfu_guard_none (st : AppState) (key : Bool) (res : UploadResult)
    (h : st.pdfFile = none) : handleFileUpload st key res = (st, false) := by
  unfold handleFileUpload
  rw [h]

/-- Invalid credential: the guard returns immediately, no request is made. -/
theorem hfu_guard_key (st : AppState) (res : UploadResult) (name : String)
    (h : st.pdfFile = some name) : handleFileUpload st false res = (st, false) := by
  unfold handleFileUpload
  rw [h]
  rfl

/-- Successful upload: success entry appended, mode set to rag, status
refreshed when the probe answered, and the finally block's resets applied. -/
theorem hfu_ok (st : AppState) (status : Option PdfStatus) (name : String)
    (h : st.pdfFile = some name) :
    handleFileUpload st true (.ok status) =
      ({ messages := st.messages ++ [uploadSuccessEntry name], isUploading := false,
         pdfFile := none, fileInputValue := "", chatMode := "rag",
         pdfStatus := status.getD st.pdfStatus }, true) := by
  unfold handleFileUpload
  rw [h]
  rfl

/-- Failed upload: error entry appended and the finally block's resets
applied; the other fields are untouched. -/
theorem hfu_err (st : AppState) (m : String) (name : String)
    (h : st.pdfFile = some name) :
    handleFileUpload st true (.err m) =
      ({ messages := st.messages ++ [uploadErrorEntry m], isUploading := false,
         pdfFile := none, fileInputValue := "", chatMode := st.chatMode,
         pdfStatus := st.pdfStatus }, true) := by
  unfold handleFileUpload
  rw [h]
  rfl

/-! ### Role invariant helpers -/

theorem rolesOK_append (t l : List Message) (h1 : rolesOK t) (h2 : rolesOK l) :
    rolesOK (t ++ l) := by
  intro m hm
  rcases List.mem_append.mp hm with h | h
  · exact h1 m h
  · exact h2 m h

/-! ### The claims -/

/-- Claim C1: for every finite sequence of text chunks processed by the
stream assembler in `handleSubmit`, the final assistant entry's content is
the in-order concatenation of the chunks, held in a single entry; and the
outcome depends only on the total text, not on how it is split into chunks
(chunk-boundary invariance). -/
theorem submit_stream_concat (msgs : List Message) (input : String)
    (c : String) (rest : List String) (h : ¬ jsTrim input = "") :
    handleSubmit input true msgs (.streamed (c :: rest)) =
      ⟨msgs ++ [⟨"user", input⟩, ⟨"assistant", concatChunks (c :: rest)⟩], true⟩
    ∧ (∀ d ds, concatChunks (d :: ds) = concatChunks (c :: rest) →
        handleSubmit input true msgs (.streamed (d :: ds)) =
          handleSubmit input true msgs (.streamed (c :: rest))) := by
  constructor
  · exact hs_streamed_cons input msgs c rest h
  · intro d ds hsplit
    rw [hs_streamed_cons input msgs d ds h, hs_streamed_cons input msgs c rest h, hsplit]

/-- Concrete instance of C1: the chunks `["Hel", "lo, ", "world!"]` yield the
single assistant entry `"Hello, world!"`. -/
theorem submit_stream_concat_witness :
    handleSubmit "hi" true [] (.streamed ["Hel", "lo, ", "world!"]) =
      ⟨[⟨"user", "hi"⟩, ⟨"assistant", "Hello, world!"⟩], true⟩ := by
  have h := (submit_stream_concat [] "hi" "Hel" ["lo, ", "world!"] (by decide)).1
  exact h.trans (by decide)

/-- Claim C3: a transport failure after at least one chunk leaves exactly one
assistant entry holding the concatenation of the chunks received so far
(the partial output is preserved, not rolled back), followed by exactly one
appended error entry describing the failure. -/
theorem midstream_failure_keeps_output (msgs : List Message) (input : String)
    (c : String) (rest : List String) (m : String) (h : ¬ jsTrim input = "") :
    handleSubmit input true msgs (.streamFail (c :: rest) m) =
      ⟨msgs ++ [⟨"user", input⟩, ⟨"assistant", concatChunks (c :: rest)⟩,
        errorEntry m], true⟩ :=
  hs_streamFail_cons input msgs c rest m h

/-- Concrete instance of C3: two chunks and then a failure keep the
accumulated text and append one error entry. -/
theorem midstream_failure_keeps_output_witness :
    handleSubmit "hi" true [] (.streamFail ["par", "tial"] "network down") =
      ⟨[⟨"user", "hi"⟩, ⟨"assistant", "partial"⟩,
        ⟨"assistant", "Error: network down"⟩], true⟩ := by
  have h := midstream_failure_keeps_output [] "hi" "par" ["tial"] "network down" (by decide)
  exact h.trans (by decide)

/-- Claim C5: a transport rejection before any streaming (for example a
non-success HTTP status) makes the transcript gain exactly two entries — the
user message and one error entry — and no assistant-content entry from
streaming. -/
theorem rejected_gains_two_entries (msgs : List Message) (input m : String)
    (h : ¬ jsTrim input = "") :
    handleSubmit input true msgs (.rejected m) =
      ⟨msgs ++ [⟨"user", input⟩, errorEntry m], true⟩ :=
  hs_rejected input msgs m h

/-- Concrete instance of C5: an HTTP 401 rejection. -/
theorem rejected_gains_two_entries_witness :
    handleSubmit "hi" true [] (.rejected "Server responded with status: 401") =
      ⟨[⟨"user", "hi"⟩,
        ⟨"assistant", "Error: Server responded with status: 401"⟩], true⟩ := by
  have h := rejected_gains_two_entries [] "hi" "Server responded with status: 401" (by decide)
  exact h.trans (by decide)

/-- Claim C6: an input whose trim is empty (empty or whitespace-only) makes
`handleSubmit` a no-op: no entry is appended, no entry is modified, and no
transport call is made. -/
theorem blank_input_noop (msgs : List Message) (input : String) (key : Bool)
    (tr : TransportResult) (h : jsTrim input = "") :
    handleSubmit input key msgs tr = ⟨msgs, false⟩ :=
  hs_guard input key msgs tr (Or.inl h)

/-- Concrete instance of C6: a whitespace-only input leaves the transcript
untouched and makes no transport call. -/
theorem blank_input_noop_witness :
    handleSubmit "   " true [⟨"user", "a"⟩] (.streamed ["x"]) =
      ⟨[⟨"user", "a"⟩], false⟩ :=
  blank_input_noop [⟨"user", "a"⟩] "   " true (.streamed ["x"]) (by decide)

/-- Concatenation of chunks distributes over list append. -/
theorem concatChunks_append (p q : List String) :
    concatChunks (p ++ q) = concatChunks p ++ concatChunks q := by
  induction p with
  | nil => rfl
  | cons c cs ih => simp [concatChunks, ih, string_append_assoc]

theorem concatChunks_snoc (p : List String) (c : String) :
    concatChunks (p ++ [c]) = concatChunks p ++ c := by
  rw [concatChunks_append]
  simp [concatChunks, string_append_empty]

/-- Claim C2: within a session the chunk step replaces the last entry's
content exactly when that entry is the assistant entry the session itself
opened, and appends a fresh assistant entry otherwise. First conjunct: on
the first chunk the last entry is the just-appended user entry, so a fresh
entry is appended after it — any assistant-role entry left by a previous
session (such as an error entry at the end of `msgs`) sits before the user
entry and is left verbatim. Second conjunct: once the session's entry is
open, the step rewrites exactly that entry. Third conjunct: these are the
only transcript shapes a session ever presents to the step, so no other
entry is ever mutated. -/
theorem chunk_step_targets_current_session (msgs : List Message)
    (input acc s : String) (p : List String) :
    chunkUpdate (msgs ++ [⟨"user", input⟩]) acc =
      some ((msgs ++ [⟨"user", input⟩]) ++ [⟨"assistant", acc⟩])
    ∧ chunkUpdate ((msgs ++ [⟨"user", input⟩]) ++ [⟨"assistant", s⟩]) acc =
      some ((msgs ++ [⟨"user", input⟩]) ++ [⟨"assistant", acc⟩])
    ∧ (∀ T, runChunks (msgs ++ [⟨"user", input⟩]) "" p = some T →
        T = msgs ++ [⟨"user", input⟩] ∨
        ∃ s', T = (msgs ++ [⟨"user", input⟩]) ++ [⟨"assistant", s'⟩]) := by
  refine ⟨chunkUpdate_other msgs ⟨"user", input⟩ (by simp) acc,
    chunkUpdate_assistant (msgs ++ [⟨"user", input⟩]) s acc, ?_⟩
  intro T hT
  cases p with
  | nil =>
    left
    rw [runChunks] at hT
    exact (Option.some_inj.mp hT).symm
  | cons c rest =>
    right
    rw [runChunks_other msgs ⟨"user", input⟩ (by simp) "" c rest] at hT
    exact ⟨"" ++ concatChunks (c :: rest), (Option.some_inj.mp hT).symm⟩

/-- Concrete instance of C2: with a prior session's error entry at the end of
the transcript, the first chunk step appends a new entry after the user
entry and leaves the old error entry untouched. -/
theorem chunk_step_targets_current_session_witness :
    chunkUpdate [⟨"assistant", "Error: boom"⟩, ⟨"user", "hi"⟩] "He" =
      some [⟨"assistant", "Error: boom"⟩, ⟨"user", "hi"⟩, ⟨"assistant", "He"⟩] := by
  have h := (chunk_step_targets_current_session [⟨"assistant", "Error: boom"⟩]
    "hi" "He" "" []).1
  exact h.trans (by decide)

/-- Claim C4: a session creates at most one assistant-content entry however
many chunks arrive — the transcript grows by the user entry plus one entry
when at least one chunk arrived and none otherwise (plus the error entry on
failure); in particular a session that fails after zero chunks creates no
empty assistant entry, only the error entry. -/
theorem at_most_one_entry_per_session (msgs : List Message) (input m : String)
    (chunks : List String) (h : ¬ jsTrim input = "") :
    (handleSubmit input true msgs (.streamed chunks)).messages.length =
      msgs.length + 1 + (if chunks.isEmpty then 0 else 1)
    ∧ (handleSubmit input true msgs (.streamFail chunks m)).messages.length =
      msgs.length + 1 + (if chunks.isEmpty then 0 else 1) + 1
    ∧ handleSubmit input true msgs (.streamFail [] m) =
      ⟨msgs ++ [⟨"user", input⟩, errorEntry m], true⟩ := by
  refine ⟨?_, ?_, hs_streamFail_nil input msgs m h⟩
  · cases chunks with
    | nil => rw [hs_streamed_nil input msgs h]; simp
    | cons c rest => rw [hs_streamed_cons input msgs c rest h]; simp
  · cases chunks with
    | nil => rw [hs_streamFail_nil input msgs m h]; simp
    | cons c rest => rw [hs_streamFail_cons input msgs c rest m h]; simp

/-- Concrete instance of C4: two chunks still create a single assistant
entry, and a failure after zero chunks creates only the error entry. -/
theorem at_most_one_entry_per_session_witness :
    (handleSubmit "hi" true [] (.streamed ["a", "b"])).messages.length = 2
    ∧ handleSubmit "hi" true [] (.streamFail [] "boom") =
      ⟨[⟨"user", "hi"⟩, ⟨"assistant", "Error: boom"⟩], true⟩ := by
  have h := at_most_one_entry_per_session [] "hi" "boom" ["a", "b"] (by decide)
  exact ⟨h.1.trans (by decide), h.2.2.trans (by decide)⟩

/-- Claim C7: `validateApiKey` rejects every string of length below 40 or
starting with neither recognized prefix, accepts every string with a
recognized prefix and length at least 40, and a rejected credential makes
`handleSubmit` return before any transport call. -/
theorem validateApiKey_spec (key : String) :
    ((key.length < 40 ∨
        (jsStartsWith key "sk-" = false ∧ jsStartsWith key "sk-proj-" = false)) →
      validateApiKey key = false)
    ∧ (((jsStartsWith key "sk-" = true ∨ jsStartsWith key "sk-proj-" = true) ∧
        40 ≤ key.length) → validateApiKey key = true)
    ∧ (∀ input msgs tr, validateApiKey key = false →
        handleSubmit input (validateApiKey key) msgs tr = ⟨msgs, false⟩) := by
  refine ⟨?_, ?_, ?_⟩
  · rintro (hlen | ⟨h1, h2⟩)
    · simp only [validateApiKey, Bool.and_eq_false_iff, decide_eq_false_iff_not]
      right
      omega
    · simp [validateApiKey, h1, h2]
  · rintro ⟨h1 | h1, hlen⟩ <;> simp [validateApiKey, h1, hlen]
  · intro input msgs tr hfalse
    rw [hfalse]
    exact hs_guard input false msgs tr (Or.inr rfl)

/-- Concrete instances of C7: a short key and a wrong-prefix key are
rejected (the latter also short-circuits `handleSubmit` with no transport
call), a 40-character project key is accepted. -/
theorem validateApiKey_spec_witness :
    validateApiKey "sk-short" = false
    ∧ validateApiKey "pk-0123456789012345678901234567890123456789" = false
    ∧ validateApiKey "sk-proj-01234567890123456789012345678901" = true
    ∧ handleSubmit "hi" (validateApiKey "sk-short") [] (.rejected "x") =
      ⟨[], false⟩ :=
  ⟨(validateApiKey_spec "sk-short").1 (Or.inl (by decide)),
   (validateApiKey_spec "pk-0123456789012345678901234567890123456789").1
     (Or.inr ⟨by decide, by decide⟩),
   (validateApiKey_spec "sk-proj-01234567890123456789012345678901").2.1
     ⟨Or.inl (by decide), by decide⟩,
   (validateApiKey_spec "sk-short").2.2 "hi" [] (.rejected "x")
     ((validateApiKey_spec "sk-short").1 (Or.inl (by decide)))⟩

/-- Claim C8: during a session the transcript before the session plus the
user entry is preserved verbatim at every step; after any nonempty prefix
`p` of the chunk sequence exactly one entry has been appended after it, so
each step either appends that one entry (first chunk) or rewrites only its
content; and the entry's content after one more chunk extends the previous
content, which remains a prefix of it. -/
theorem stream_frame_and_monotone (msgs : List Message) (input : String)
    (p : List String) (c : String) (hp : p ≠ []) :
    runChunks (msgs ++ [⟨"user", input⟩]) "" [] = some (msgs ++ [⟨"user", input⟩])
    ∧ runChunks (msgs ++ [⟨"user", input⟩]) "" p =
      some ((msgs ++ [⟨"user", input⟩]) ++ [⟨"assistant", concatChunks p⟩])
    ∧ runChunks (msgs ++ [⟨"user", input⟩]) "" (p ++ [c]) =
      some ((msgs ++ [⟨"user", input⟩]) ++ [⟨"assistant", concatChunks p ++ c⟩])
    ∧ (∃ t, concatChunks p ++ t = concatChunks (p ++ [c])) := by
  cases p with
  | nil => exact absurd rfl hp
  | cons d ds =>
    refine ⟨rfl, ?_, ?_, ⟨c, (concatChunks_snoc (d :: ds) c).symm⟩⟩
    · exact runChunks_other msgs ⟨"user", input⟩ (by simp) "" d ds
    · have h := runChunks_other msgs ⟨"user", input⟩ (by simp) "" d (ds ++ [c])
      rw [show (d :: ds) ++ [c] = d :: (ds ++ [c]) from rfl, h,
        show ("" : String) ++ concatChunks (d :: (ds ++ [c])) =
          concatChunks ((d :: ds) ++ [c]) from rfl,
        concatChunks_snoc (d :: ds) c]

/-- Concrete instance of C8: after `["Hel"]` the open entry holds `"Hel"`,
after one more chunk it holds `"Hello"`, the user entry untouched. -/
theorem stream_frame_and_monotone_witness :
    runChunks [⟨"user", "hi"⟩] "" ["Hel"] =
      some [⟨"user", "hi"⟩, ⟨"assistant", "Hel"⟩]
    ∧ runChunks [⟨"user", "hi"⟩] "" ["Hel", "lo"] =
      some [⟨"user", "hi"⟩, ⟨"assistant", "Hello"⟩] := by
  have h := stream_frame_and_monotone [] "hi" ["Hel"] "lo" (by decide)
  exact ⟨h.2.1.trans (by decide), h.2.2.1.trans (by decide)⟩

/-- Claim C9: every entry either handler ever places in the transcript — the
user append, the streaming append or replace, the submit error append, the
upload success append and the upload error append — has role `"user"` or
`"assistant"`, so both operations preserve the role invariant of the whole
transcript. -/
theorem roles_invariant (msgs : List Message) (st : AppState)
    (h1 : rolesOK msgs) (h2 : rolesOK st.messages) :
    (∀ input key tr, rolesOK (handleSubmit input key msgs tr).messages)
    ∧ (∀ key res, rolesOK ((handleFileUpload st key res).1.messages)) := by
  constructor
  · intro input key tr
    by_cases hin : jsTrim input = ""
    · rw [hs_guard input key msgs tr (Or.inl hin)]
      exact h1
    · cases key with
      | false =>
        rw [hs_guard input false msgs tr (Or.inr rfl)]
        exact h1
      | true =>
        cases tr with
        | rejected m =>
          rw [hs_rejected input msgs m hin]
          exact rolesOK_append _ _ h1 (by simp [rolesOK, errorEntry])
        | streamed chunks =>
          cases chunks with
          | nil =>
            rw [hs_streamed_nil input msgs hin]
            exact rolesOK_append _ _ h1 (by simp [rolesOK])
          | cons c rest =>
            rw [hs_streamed_cons input msgs c rest hin]
            exact rolesOK_append _ _ h1 (by simp [rolesOK])
        | streamFail chunks m =>
          cases chunks with
          | nil =>
            rw [hs_streamFail_nil input msgs m hin]
            exact rolesOK_append _ _ h1 (by simp [rolesOK, errorEntry])
          | cons c rest =>
            rw [hs_streamFail_cons input msgs c rest m hin]
            exact rolesOK_append _ _ h1 (by simp [rolesOK, errorEntry])
  · intro key res
    cases hpf : st.pdfFile with
    | none =>
      rw [hfu_guard_none st key res hpf]
      exact h2
    | some name =>
      cases key with
      | false =>
        rw [hfu_guard_key st res name hpf]
        exact h2
      | true =>
        cases res with
        | ok status =>
          rw [hfu_ok st status name hpf]
          exact rolesOK_append _ _ h2 (by simp [rolesOK, uploadSuccessEntry])
        | err m =>
          rw [hfu_err st m name hpf]
          exact rolesOK_append _ _ h2 (by simp [rolesOK, uploadErrorEntry])

/-- Concrete instance of C9: a failed submission and a failed upload both
leave a transcript whose entries all carry role user or assistant. -/
theorem roles_invariant_witness :
    rolesOK (handleSubmit "hi" true [⟨"user", "a"⟩] (.rejected "x")).messages
    ∧ rolesOK ((handleFileUpload
        ⟨[], false, some "f.pdf", "f.pdf", "regular", ⟨false, 0⟩⟩ true
        (.err "x")).1.messages) := by
  have h := roles_invariant [⟨"user", "a"⟩]
    ⟨[], false, some "f.pdf", "f.pdf", "regular", ⟨false, 0⟩⟩
    (by simp [rolesOK]) (by simp [rolesOK])
  exact ⟨h.1 "hi" true (.rejected "x"), h.2 true (.err "x")⟩

/-- Claim C10: when the guard of `handleFileUpload` passes (a file is
selected and the credential is valid), then whatever the upload outcome,
the finally block leaves `isUploading` false, `pdfFile` null and the file
input's value cleared, and a request was made; when the guard fails, the
call is a no-op returning the state unchanged with no request made. -/
theorem upload_cleanup_and_guard (st : AppState) (key : Bool) (res : UploadResult) :
    (∀ name, st.pdfFile = some name → key = true →
      ((handleFileUpload st key res).1.isUploading = false
        ∧ (handleFileUpload st key res).1.pdfFile = none
        ∧ (handleFileUpload st key res).1.fileInputValue = ""
        ∧ (handleFileUpload st key res).2 = true))
    ∧ (st.pdfFile = none ∨ key = false → handleFileUpload st key res = (st, false)) := by
  constructor
  · intro name hpf hk
    subst hk
    cases res with
    | ok status => rw [hfu_ok st status name hpf]; exact ⟨rfl, rfl, rfl, rfl⟩
    | err m => rw [hfu_err st m name hpf]; exact ⟨rfl, rfl, rfl, rfl⟩
  · rintro (h | h)
    · exact hfu_guard_none st key res h
    · subst h
      cases hpf : st.pdfFile with
      | none => exact hfu_guard_none st false res hpf
      | some name => exact hfu_guard_key st res name hpf

/-- Concrete instances of C10: a failing upload still resets the upload
state, and a call without a selected file is a no-op. -/
theorem upload_cleanup_and_guard_witness :
    ((handleFileUpload ⟨[], false, some "f.pdf", "f.pdf", "regular", ⟨false, 0⟩⟩
        true (.err "x")).1.isUploading = false
      ∧ (handleFileUpload ⟨[], false, some "f.pdf", "f.pdf", "regular", ⟨false, 0⟩⟩
        true (.err "x")).1.pdfFile = none
      ∧ (handleFileUpload ⟨[], false, some "f.pdf", "f.pdf", "regular", ⟨false, 0⟩⟩
        true (.err "x")).1.fileInputValue = ""
      ∧ (handleFileUpload ⟨[], false, some "f.pdf", "f.pdf", "regular", ⟨false, 0⟩⟩
        true (.err "x")).2 = true)
    ∧ handleFileUpload ⟨[], true, none, "", "regular", ⟨false, 0⟩⟩ true (.ok none) =
      (⟨[], true, none, "", "regular", ⟨false, 0⟩⟩, false) :=
  ⟨(upload_cleanup_and_guard ⟨[], false, some "f.pdf", "f.pdf", "regular", ⟨false, 0⟩⟩
      true (.err "x")).1 "f.pdf" rfl rfl,
   (upload_cleanup_and_guard ⟨[], true, none, "", "regular", ⟨false, 0⟩⟩
      true (.ok none)).2 (Or.inl rfl)⟩

end Page
